import Mathlib

/-!
Vehicle detection system: spot colouring, nearest free spot, path drawing, click routing

A shallow embedding of `Server/static/js/index.js`.

* A status record of the `/spots` snapshot is a `Record`; a field the JSON
  object lacks is `none` (JavaScript `undefined`).
* The diagram is a `State`: the `.spot` elements in document order, the child
  nodes of the `svg` element in order, the closure variable `lastClickedSpot`
  and the messages shown by `alert`.
* A callback that can throw returns an `Outcome`: the state reached and
  whether an exception left the function at that point.

Coordinates are exact rationals. The selector of `querySelector` selects by
the id of the parent element and the `data-spot-number` attribute when the
section name is a CSS identifier; a name that is not one makes the call throw
a SyntaxError.
-/

namespace VehicleDetection

/-! ## Data model -/

/-- One status record of a snapshot; `none` is a field the object lacks. -/
structure Record where
  sectionName : Option String
  spot_number : Option Int
  status : Option String
  deriving DecidableEq, Repr

/-- The attribute `d` of a drawn path: `M startX startY L endX endY`. -/
structure Segment where
  startX : Rat
  startY : Rat
  endX : Rat
  endY : Rat
  deriving DecidableEq, Repr

/-- A `.spot` element: the id of its parent section element, its
`data-spot-number`, its `x` and `y` attributes and its `style.fill`. -/
structure SpotEl where
  parentId : String
  spotNumber : Int
  x : Rat
  y : Rat
  fill : String
  deriving DecidableEq, Repr

/-- A child node of the `svg` element. -/
structure Node where
  tagName : String
  id : Option String
  d : Option Segment
  deriving DecidableEq, Repr

/-- The diagram together with the click router's closure variable. -/
structure State where
  spots : List SpotEl
  children : List Node
  lastClickedSpot : Option Nat
  alerts : List String
  deriving DecidableEq, Repr

/-- The state a function leaves behind and whether it left by throwing. -/
structure Outcome where
  state : State
  thrown : Bool
  deriving DecidableEq, Repr

/-! ## Strings -/

/-- `String.prototype.replace` with a string pattern on the characters:
only the first occurrence is replaced. -/
def replaceFirstChars (pat rep : List Char) : List Char → List Char
  | [] => if pat = [] then rep else []
  | c :: cs =>
    if pat.isPrefixOf (c :: cs) then rep ++ (c :: cs).drop pat.length
    else c :: replaceFirstChars pat rep cs

/-- `s.replace(pat, rep)` for a string pattern `pat`. -/
def jsReplace (s pat rep : String) : String :=
  ⟨replaceFirstChars pat.data rep.data s.data⟩

/-- The text a template literal gives a spot number. -/
def numberText : Option Int → String
  | none => "undefined"
  | some n => toString n

/-! ## Nearest free spot -/

/-- The test `spot.spot_number === spotNumber ∓ offset`; an absent operand
makes the right-hand side `NaN`, the left-hand side `undefined`. -/
def numEq : Option Int → Option Int → Bool
  | some a, some b => a == b
  | _, _ => false

/-- The predicate of `data.find` for `candidateBefore`. -/
def isCandidateBefore (section_ : String) (spotNumber : Option Int) (offset : Nat)
    (spot : Record) : Bool :=
  spot.sectionName == some section_ &&
  numEq spot.spot_number (spotNumber.map (fun n => n - (offset : Int))) &&
  spot.status == some "available"

/-- The predicate of `data.find` for `candidateAfter`. -/
def isCandidateAfter (section_ : String) (spotNumber : Option Int) (offset : Nat)
    (spot : Record) : Bool :=
  spot.sectionName == some section_ &&
  numEq spot.spot_number (spotNumber.map (fun n => n + (offset : Int))) &&
  spot.status == some "available"

/-- The `for` loop of `findNearestFreeSpot` from `offset` on, with `fuel`
iterations left before `offset < data.length` fails. -/
def searchFrom (data : List Record) (section_ : String) (spotNumber : Option Int) :
    Nat → Nat → Option Record
  | 0, _ => none
  | fuel + 1, offset =>
    match data.find? (isCandidateBefore section_ spotNumber offset) with
    | some candidateBefore => some candidateBefore
    | none =>
      match data.find? (isCandidateAfter section_ spotNumber offset) with
      | some candidateAfter => some candidateAfter
      | none => searchFrom data section_ spotNumber fuel (offset + 1)

/-- `findNearestFreeSpot(data, section, spotNumber)`: offsets `1` up to
`data.length - 1`. -/
def findNearestFreeSpot (data : List Record) (section_ : String)
    (spotNumber : Option Int) : Option Record :=
  searchFrom data section_ spotNumber (data.length - 1) 1

/-- A well-formed record. -/
def mkRecord (s : String) (n : Int) (st : String) : Record :=
  ⟨some s, some n, some st⟩

/-- Section B2 with spots 1 to 5, spot 3 occupied and the others available. -/
def scenarioB2 : List Record :=
  [mkRecord "B2" 1 "available", mkRecord "B2" 2 "available", mkRecord "B2" 3 "occupied",
   mkRecord "B2" 4 "available", mkRecord "B2" 5 "available"]

/-! ## Data-model invariant of a snapshot -/

/-- The pairs (section, spot number) of a snapshot are unique. -/
def UniquePairs (data : List Record) : Prop :=
  data.Pairwise (fun a b => ¬ (a.sectionName = b.sectionName ∧ a.spot_number = b.spot_number))

/-- The spot numbers of each section are contiguous from 1: every record has a
spot number `m ≥ 1`, and every number from 1 below `m` is the spot number of a
record of the same section. -/
def ContiguousFromOne (data : List Record) : Prop :=
  ∀ r ∈ data, ∃ m : Int, r.spot_number = some m ∧ 1 ≤ m ∧
    ∀ j : Int, 1 ≤ j → j < m →
      ∃ q ∈ data, q.sectionName = r.sectionName ∧ q.spot_number = some j

/-- The invariant of the data model on a snapshot. -/
def SnapshotInvariant (data : List Record) : Prop :=
  UniquePairs data ∧ ContiguousFromOne data

/-- Section A with spots 1 and 2 occupied and spot 3 available. -/
def scenarioA3 : List Record :=
  [mkRecord "A" 1 "occupied", mkRecord "A" 2 "occupied", mkRecord "A" 3 "available"]

/-! ## The diagram -/

/-- A code point that can start a CSS identifier: a letter, an underscore
or a code point outside ASCII. -/
def isNameStart (c : Char) : Bool :=
  c.isAlpha || c == '_' || decide (128 ≤ c.toNat)

/-- A code point that can continue a CSS identifier. -/
def isNameChar (c : Char) : Bool :=
  isNameStart c || c.isDigit || c == '-'

/-- The name is an identifier of the CSS syntax, escapes apart: only then is
`#${section}` an ID selector. -/
def isCssIdentifier (s : String) : Bool :=
  match s.data with
  | [] => false
  | '-' :: '-' :: rest => rest.all isNameChar
  | '-' :: c :: rest => isNameStart c && rest.all isNameChar
  | c :: rest => isNameStart c && rest.all isNameChar

/-- What a call of `document.querySelector` does: it throws a SyntaxError,
or it returns an element, given by its index, or null. -/
inductive Query where
  | syntaxError
  | element (i : Option Nat)
  deriving DecidableEq, Repr

/-- The element a well-formed selector
`#${section} [data-spot-number="${spotNumber}"]` selects: the index of the
first spot element under the element with that id whose attribute has that
text. -/
def selectSpot (spots : List SpotEl) (section_ : String) (spotNumber : Option Int) :
    Option Nat :=
  let i := spots.findIdx
    (fun el => el.parentId == section_ && some el.spotNumber == spotNumber)
  if i < spots.length then some i else none

/-- `document.querySelector` for the selector
`#${section} [data-spot-number="${spotNumber}"]`: a section that is not an
identifier makes the selector invalid, and the call throws. -/
def querySpot (spots : List SpotEl) (section_ : String) (spotNumber : Option Int) : Query :=
  if isCssIdentifier section_ then .element (selectSpot spots section_ spotNumber)
  else .syntaxError

/-- The assignment `spotElement.style.fill = colour` on the element at index `i`. -/
def setFill (spots : List SpotEl) (i : Nat) (colour : String) : List SpotEl :=
  spots.modify (fun el => { el with fill := colour }) i

/-- The fill `updateSpotColors` gives a spot for a status. -/
def statusColour (status : Option String) : String :=
  if status = some "occupied" then "red"
  else if status = some "available" then "cyan"
  else "gray"

/-- The callback of `data.forEach` in `updateSpotColors`; reading
`spot.section.replace` throws a TypeError when the record has no section, and
`querySelector` throws when the selector is invalid. -/
def colourStep (st : State) (spot : Record) : Outcome :=
  match spot.sectionName with
  | none => ⟨st, true⟩
  | some rawSection =>
    let section_ := jsReplace rawSection "_" "-"
    let spotNumber := spot.spot_number
    let status := spot.status
    match querySpot st.spots section_ spotNumber with
    | .syntaxError => ⟨st, true⟩
    | .element (some i) =>
      ⟨{ st with spots := setFill st.spots i (statusColour status) }, false⟩
    | .element none => ⟨st, false⟩

/-- `Array.prototype.forEach` with a callback that can throw: the loop ends at
the first exception. -/
def forEach (step : State → Record → Outcome) : State → List Record → Outcome
  | st, [] => ⟨st, false⟩
  | st, spot :: rest =>
    let o := step st spot
    if o.thrown then o else forEach step o.state rest

/-- `updateSpotColors(data)`: every spot is reset to darkgray, then the
records are applied in order. -/
def updateSpotColors (data : List Record) (st : State) : Outcome :=
  forEach colourStep
    { st with spots := st.spots.map (fun el => { el with fill := "darkgray" }) } data

/-- `removePathForSpot(section, spotNumber)`: the element with id
`path-${section}-${spotNumber}`, when there is one, is removed from the svg. -/
def removePathForSpot (st : State) (section_ : String) (spotNumber : Option Int) : State :=
  let pathId := "path-" ++ section_ ++ "-" ++ numberText spotNumber
  match st.children.findIdx? (fun c => c.id == some pathId) with
  | some i => { st with children := st.children.eraseIdx i }
  | none => st

/-- The element `drawPath` creates: a path with the attribute `d` and no id. -/
def pathNode (startX startY endX endY : Rat) : Node :=
  ⟨"path", none, some ⟨startX, startY, endX, endY⟩⟩

/-- `drawPath(svg, startX, startY, endX, endY)`: a new path element is
appended to the svg. -/
def drawPath (st : State) (startX startY endX endY : Rat) : State :=
  { st with children := st.children ++ [pathNode startX startY endX endY] }

/-- `drawPathToSpot(fromSection, fromSpotNumber, toSection, toSpotNumber)`;
either call of `querySelector` throws when its selector is invalid. -/
def drawPathToSpot (st : State) (fromSection : String) (fromSpotNumber : Option Int)
    (toSection : String) (toSpotNumber : Option Int) : Outcome :=
  match querySpot st.spots fromSection fromSpotNumber with
  | .syntaxError => ⟨st, true⟩
  | .element fromIdx =>
    match querySpot st.spots toSection toSpotNumber with
    | .syntaxError => ⟨st, true⟩
    | .element toIdx =>
      match fromIdx, toIdx with
      | some i, some j =>
        match st.spots[i]?, st.spots[j]? with
        | some fromSpot, some toSpot =>
          let fromX := fromSpot.x
          let fromY := fromSpot.y
          let toX := toSpot.x
          let toY := toSpot.y
          let st1 := drawPath st 421 134 fromX fromY
          let st2 := drawPath st1 fromX fromY fromX toY
          ⟨drawPath st2 fromX toY toX toY, false⟩
        | _, _ => ⟨st, false⟩
      | _, _ => ⟨st, false⟩

/-- The callback of `data.forEach` in `updatePathForOccupiedSpots`. A record
returned by `findNearestFreeSpot` has a section, that of the query. -/
def pathStep (data : List Record) (st : State) (spot : Record) : Outcome :=
  match spot.sectionName with
  | none => ⟨st, true⟩
  | some rawSection =>
    let section_ := jsReplace rawSection "_" "-"
    let spotNumber := spot.spot_number
    let status := spot.status
    if status = some "occupied" then
      let st1 := removePathForSpot st section_ spotNumber
      match findNearestFreeSpot data section_ spotNumber with
      | some nearestFreeSpot =>
        drawPathToSpot st1 section_ spotNumber
          (nearestFreeSpot.sectionName.getD "undefined") nearestFreeSpot.spot_number
      | none => ⟨st1, false⟩
    else ⟨st, false⟩

/-- `updatePathForOccupiedSpots(data)`. -/
def updatePathForOccupiedSpots (data : List Record) (st : State) : Outcome :=
  forEach (pathStep data) st data

/-- The callback of `fetch("/spots")` in `fetchSpotsData`: the colours, then
the paths; an exception of the first skips the second and reaches `catch`. -/
def applySnapshot (data : List Record) (st : State) : Outcome :=
  let o := updateSpotColors data st
  if o.thrown then o else updatePathForOccupiedSpots data o.state

/-! ## The click router -/

/-- A waypoint of the route graph. -/
structure Waypoint where
  id : Nat
  x : Rat
  y : Rat
  deriving DecidableEq, Repr

/-- The table `waypoints`. -/
def waypoints : List Waypoint :=
  [⟨1, 430, 132⟩, ⟨2, 430, 110⟩, ⟨3, 380, 110⟩, ⟨4, 102, 110⟩, ⟨5, 380, 202⟩, ⟨6, 380, 297⟩]

/-- `waypoints[id - 1]`, `none` when the index is outside the table. -/
def waypointAt (id : Nat) : Option Waypoint :=
  if id = 0 then none else waypoints[id - 1]?

/-- The value of `routingPaths[section]`: an entry of the table, a member
inherited from `Object.prototype`, or `undefined`. -/
inductive RouteLookup where
  | own (pathIds : List Nat)
  | inherited
  | undefined
  deriving DecidableEq, Repr

/-- The property names an object literal inherits from `Object.prototype`. -/
def objectPrototypeKeys : List String :=
  ["constructor", "toString", "toLocaleString", "valueOf", "hasOwnProperty",
   "isPrototypeOf", "propertyIsEnumerable", "__proto__", "__defineGetter__",
   "__defineSetter__", "__lookupGetter__", "__lookupSetter__"]

/-- The lookup `routingPaths[section]`. -/
def routingPaths (section_ : String) : RouteLookup :=
  if section_ = "A" then .own [1, 2, 3]
  else if section_ = "B1" then .own [1, 2, 3]
  else if section_ = "E" then .own [1, 2, 3, 4]
  else if section_ = "B2" then .own [1, 2, 3, 5]
  else if section_ = "C2" then .own [1, 2, 3, 5]
  else if section_ = "C1" then .own [1, 2, 3, 5, 6]
  else if section_ = "D" then .own [1, 2, 3, 5, 6]
  else if section_ ∈ objectPrototypeKeys then .inherited
  else .undefined

/-- `spotColor.toLowerCase()` on a colour keyword. -/
def toLowerCase (s : String) : String :=
  ⟨s.data.map Char.toLower⟩

/-- The test of the click handler for an occupied spot. -/
def isOccupiedColour (spotColor : String) : Bool :=
  toLowerCase spotColor == "red" || toLowerCase spotColor == "darkred"

/-- The loop `while (svg.lastChild.tagName === "path") svg.removeChild(svg.lastChild)`
on the children in reverse order; with no child left `svg.lastChild` is null
and reading `tagName` throws. -/
def dropPathsRev : List Node → List Node × Bool
  | [] => ([], true)
  | c :: rest => if c.tagName = "path" then dropPathsRev rest else (c :: rest, false)

/-- The loop that removes the trailing path elements of the svg: the
children left and whether the loop threw. -/
def removeTrailingPaths (children : List Node) : List Node × Bool :=
  ((dropPathsRev children.reverse).1.reverse, (dropPathsRev children.reverse).2)

/-- The `forEach` over `pathIds.slice(1)`: one segment from the last point to
each waypoint. The result is the state reached and the last point; an id with
no waypoint throws on `waypoint.x`, and the last point is `none`. -/
def drawWaypoints : State → Rat → Rat → List Nat → State × Option (Rat × Rat)
  | st, lastX, lastY, [] => (st, some (lastX, lastY))
  | st, lastX, lastY, id :: rest =>
    match waypointAt id with
    | none => (st, none)
    | some waypoint =>
      drawWaypoints (drawPath st lastX lastY waypoint.x waypoint.y) waypoint.x waypoint.y rest

/-- The two closing segments of a route, by section. -/
def drawApproach (st : State) (section_ : String) (lastX lastY spotX spotY : Rat) : State :=
  if section_ = "E" then
    drawPath (drawPath st lastX lastY lastX (spotY - 5)) lastX (spotY - 5) (spotX + 19) (spotY - 5)
  else if section_ = "A" ∨ section_ = "B2" ∨ section_ = "C1" then
    drawPath (drawPath st lastX lastY (spotX + 5) lastY) (spotX + 5) lastY (spotX + 5) (spotY + 19)
  else
    drawPath (drawPath st lastX lastY (spotX + 5) lastY) (spotX + 5) lastY (spotX + 5) spotY

/-- The route of the click handler from the first waypoint of `pathIds` to
the spot; `waypoints[pathIds[0] - 1].x` throws when there is no such waypoint. -/
def drawRoute (st : State) (pathIds : List Nat) (section_ : String) (spot : SpotEl) :
    Outcome :=
  match pathIds with
  | [] => ⟨st, true⟩
  | first :: rest =>
    match waypointAt first with
    | none => ⟨st, true⟩
    | some w0 =>
      match drawWaypoints st w0.x w0.y rest with
      | (st1, none) => ⟨st1, true⟩
      | (st1, some (lastX, lastY)) =>
        ⟨drawApproach st1 section_ lastX lastY spot.x spot.y, false⟩

/-- The message of the rejection. -/
def occupiedMessage : String := "This spot is occupied and cannot be routed."

/-- The click handler of the svg. The target is the spot element at index
`target`; an index with no spot is a target without the class `spot`. -/
def onClick (st : State) (target : Nat) : Outcome :=
  match st.spots[target]? with
  | none => ⟨st, false⟩
  | some spot =>
    let section_ := jsReplace spot.parentId "section-" ""
    let pathIds := routingPaths section_
    let spotColor := spot.fill
    if isOccupiedColour spotColor then
      ⟨{ st with alerts := st.alerts ++ [occupiedMessage] }, false⟩
    else if st.lastClickedSpot = some target then
      let cleared := removeTrailingPaths st.children
      if cleared.2 then ⟨{ st with children := cleared.1 }, true⟩
      else ⟨{ st with children := cleared.1, lastClickedSpot := none }, false⟩
    else
      let st1 := { st with lastClickedSpot := some target }
      match pathIds with
      | .undefined => ⟨st1, false⟩
      | .inherited =>
        ⟨{ st1 with children := (removeTrailingPaths st1.children).1 }, true⟩
      | .own ids =>
        let cleared := removeTrailingPaths st1.children
        if cleared.2 then ⟨{ st1 with children := cleared.1 }, true⟩
        else drawRoute { st1 with children := cleared.1 } ids section_ spot

/-! ## Naming of spots and sample diagrams -/

/-- A record names a spot element: its section, after the rewriting of the
first underscore, is the id of the spot's parent and its spot number is the
spot's `data-spot-number`. -/
def matchesSpot (spot : Record) (el : SpotEl) : Bool :=
  spot.sectionName.map (fun raw => jsReplace raw "_" "-") == some el.parentId &&
  spot.spot_number == some el.spotNumber

/-- A path element of the svg. -/
def isPath (c : Node) : Bool := c.tagName == "path"

/-- The path elements of the svg, in order. -/
def pathSegments (st : State) : List Node := st.children.filter isPath

/-- A diagram with the first three spots of section A, spot 2 shown available
and spot 3 shown occupied, no path drawn and no spot clicked. -/
def diagramA : State :=
  { spots := [⟨"section-A", 1, 197.5, 50, "darkgray"⟩, ⟨"section-A", 2, 208.5, 50, "cyan"⟩,
              ⟨"section-A", 3, 219.5, 50, "red"⟩],
    children := [⟨"g", some "section-A", none⟩],
    lastClickedSpot := none,
    alerts := [] }

/-- A record that lacks its section, followed by a well-formed record for
spot 2 of section A. -/
def snapshotNoSection : List Record :=
  [⟨none, some 1, some "occupied"⟩, mkRecord "section-A" 2 "occupied"]

/-- A well-formed record for spot 2 of section A, followed by a record for the
same spot that lacks its status. -/
def snapshotNoStatus : List Record :=
  [mkRecord "section-A" 2 "available", ⟨some "section-A", some 2, none⟩]

/-- The fill of the spot element at index `i`. -/
def fillAt (st : State) (i : Nat) : Option String :=
  (st.spots[i]?).map (fun el => el.fill)

/-- The section ids and spot numbers of the spot elements, which no function
of the program changes after the layout. -/
def spotKeys (spots : List SpotEl) : List (String × Int) :=
  spots.map (fun el => (el.parentId, el.spotNumber))

/-- Spot 1 of section A occupied and spot 2 available, the section written
with a hyphen, as the ids of the diagram are. -/
def snapshotHyphen : List Record :=
  [mkRecord "section-A" 1 "occupied", mkRecord "section-A" 2 "available"]

/-- The same snapshot with the section written with an underscore. -/
def snapshotUnderscore : List Record :=
  [mkRecord "section_A" 1 "occupied", mkRecord "section_A" 2 "available"]

/-- A diagram with one spot in a section `Z` that has no entry in
`routingPaths`, no path drawn and no spot clicked. -/
def diagramZ : State :=
  { spots := [⟨"section-Z", 1, 10, 10, "darkgray"⟩],
    children := [⟨"g", some "section-Z", none⟩],
    lastClickedSpot := none,
    alerts := [] }

/-- The state `st'` is `st` with path elements appended to the svg and
nothing else changed. -/
def AppendsPaths (st st' : State) : Prop :=
  st'.spots = st.spots ∧ st'.lastClickedSpot = st.lastClickedSpot ∧ st'.alerts = st.alerts ∧
    ∃ segs : List Node, st'.children = st.children ++ segs ∧ ∀ c ∈ segs, c.tagName = "path"

/-- The sample diagram after one poll of `snapshotHyphen`: the three segments
suggested for the occupied spot 1 are the trailing children of the svg. -/
def diagramPolled : State :=
  (updatePathForOccupiedSpots snapshotHyphen diagramA).state

/-- Spot 1 of section A occupied and spot 5 available, with no record
between them. -/
def snapshotFar : List Record :=
  [mkRecord "A" 1 "occupied", mkRecord "A" 5 "available"]

/-- The snapshot `snapshotFar` followed by three occupied spots of another
section, B. -/
def snapshotFarPadded : List Record :=
  snapshotFar ++
    [mkRecord "B" 1 "occupied", mkRecord "B" 2 "occupied", mkRecord "B" 3 "occupied"]

/-- The record has a section whose rewritten name is a CSS identifier, so
that reading it does not throw and the selector built from it is valid. -/
def hasValidSection (r : Record) : Bool :=
  match r.sectionName with
  | none => false
  | some raw => isCssIdentifier (jsReplace raw "_" "-")

/-- A record that lacks its status and whose section starts with a digit,
followed by a well-formed record for spot 2 of section A. -/
def snapshotBadSelector : List Record :=
  [⟨some "1A", some 1, none⟩, mkRecord "section-A" 2 "occupied"]

/-! ## Theorems: nearest free spot -/

theorem isCandidateBefore_iff (s : String) (n : Int) (d : Nat) (q : Record) :
    isCandidateBefore s (some n) d q = true ↔
      q.sectionName = some s ∧ q.spot_number = some (n - (d : Int)) ∧
        q.status = some "available" := by
  rcases q with ⟨qs, qn, qt⟩
  cases qn <;> simp [isCandidateBefore, numEq, and_assoc]

theorem isCandidateAfter_iff (s : String) (n : Int) (d : Nat) (q : Record) :
    isCandidateAfter s (some n) d q = true ↔
      q.sectionName = some s ∧ q.spot_number = some (n + (d : Int)) ∧
        q.status = some "available" := by
  rcases q with ⟨qs, qn, qt⟩
  cases qn <;> simp [isCandidateAfter, numEq, and_assoc]

/-- What a successful search from `offset` says: the record was found by one
of the two `find` calls at some offset `d`, and every earlier offset failed
on both sides. -/
theorem searchFrom_some (data : List Record) (s : String) (n : Option Int) (r : Record) :
    ∀ fuel offset, searchFrom data s n fuel offset = some r →
      ∃ d, offset ≤ d ∧ d < offset + fuel ∧
        (data.find? (isCandidateBefore s n d) = some r ∨
          (data.find? (isCandidateBefore s n d) = none ∧
            data.find? (isCandidateAfter s n d) = some r)) ∧
        ∀ e, offset ≤ e → e < d →
          data.find? (isCandidateBefore s n e) = none ∧
            data.find? (isCandidateAfter s n e) = none := by
  intro fuel
  induction fuel with
  | zero => intro offset h; simp [searchFrom] at h
  | succ fuel ih =>
    intro offset h
    unfold searchFrom at h
    cases hb : data.find? (isCandidateBefore s n offset) with
    | some c =>
      rw [hb] at h
      simp only [Option.some.injEq] at h
      subst h
      exact ⟨offset, le_refl _, by omega, Or.inl hb, fun e h1 h2 => by omega⟩
    | none =>
      rw [hb] at h
      cases ha : data.find? (isCandidateAfter s n offset) with
      | some c =>
        rw [ha] at h
        simp only [Option.some.injEq] at h
        subst h
        exact ⟨offset, le_refl _, by omega, Or.inr ⟨hb, ha⟩, fun e h1 h2 => by omega⟩
      | none =>
        rw [ha] at h
        obtain ⟨d, hd1, hd2, hd3, hd4⟩ := ih (offset + 1) h
        refine ⟨d, by omega, by omega, hd3, ?_⟩
        intro e he1 he2
        rcases Nat.eq_or_lt_of_le he1 with heq | hlt
        · subst heq; exact ⟨hb, ha⟩
        · exact hd4 e hlt he2

/-- A search fails exactly when both `find` calls fail at every offset of
the loop. -/
theorem searchFrom_eq_none (data : List Record) (s : String) (n : Option Int) :
    ∀ fuel offset, searchFrom data s n fuel offset = none ↔
      ∀ e, offset ≤ e → e < offset + fuel →
        data.find? (isCandidateBefore s n e) = none ∧
          data.find? (isCandidateAfter s n e) = none := by
  intro fuel
  induction fuel with
  | zero => intro offset; simp [searchFrom]; intro e h1 h2; omega
  | succ fuel ih =>
    intro offset
    unfold searchFrom
    cases hb : data.find? (isCandidateBefore s n offset) with
    | some c =>
      simp only [false_iff, reduceCtorEq]
      intro h
      have := (h offset (le_refl _) (by omega)).1
      rw [hb] at this
      exact Option.noConfusion this
    | none =>
      cases ha : data.find? (isCandidateAfter s n offset) with
      | some c =>
        simp only [false_iff, reduceCtorEq]
        intro h
        have := (h offset (le_refl _) (by omega)).2
        rw [ha] at this
        exact Option.noConfusion this
      | none =>
        simp only
        rw [ih (offset + 1)]
        constructor
        · intro h e he1 he2
          rcases Nat.eq_or_lt_of_le he1 with heq | hlt
          · subst heq; exact ⟨hb, ha⟩
          · exact h e hlt (by omega)
        · intro h e he1 he2
          exact h e (by omega) (by omega)


theorem find?_mem_pred {p : Record → Bool} {data : List Record} {r : Record}
    (h : data.find? p = some r) : r ∈ data ∧ p r = true :=
  ⟨List.mem_of_find?_eq_some h, List.find?_some h⟩

/-- C1. Whenever `findNearestFreeSpot(data, s, n)` returns a record `r`, it is
a record of `data` of section `s` with status "available", no available record
of section `s` lies at a smaller non-zero offset from `n`, and when available
records of section `s` exist at both `n - d` and `n + d` for the offset `d` of
`r`, then `r` is the one at `n - d`. -/
theorem findNearestFreeSpot_nearest (data : List Record) (s : String) (n : Int) (r : Record)
    (h : findNearestFreeSpot data s (some n) = some r) :
    r ∈ data ∧ r.sectionName = some s ∧ r.status = some "available" ∧
      ∃ m : Int, r.spot_number = some m ∧ m ≠ n ∧
        (∀ q ∈ data, q.sectionName = some s → q.status = some "available" →
          ∀ k : Int, q.spot_number = some k → k ≠ n → |m - n| ≤ |k - n|) ∧
        ((∃ q ∈ data, q.sectionName = some s ∧ q.status = some "available" ∧
            q.spot_number = some (n - |m - n|)) →
          (∃ q ∈ data, q.sectionName = some s ∧ q.status = some "available" ∧
            q.spot_number = some (n + |m - n|)) →
          m = n - |m - n|) := by
  obtain ⟨d, hd1, hd2, hfound, hearlier⟩ := searchFrom_some data s (some n) r _ _ h
  -- no available record of the section at a non-zero offset below `d`
  have hmin : ∀ q ∈ data, q.sectionName = some s → q.status = some "available" →
      ∀ k : Int, q.spot_number = some k → k ≠ n → (d : Int) ≤ |k - n| := by
    intro q hq hqs hqt k hk hkn
    by_contra hlt
    push_neg at hlt
    have hpos : 0 < |k - n| := abs_pos.mpr (sub_ne_zero.mpr hkn)
    obtain ⟨e, he⟩ : ∃ e : Nat, (e : Int) = |k - n| := ⟨(|k - n|).toNat, by omega⟩
    have he1 : 1 ≤ e := by omega
    have he2 : e < d := by omega
    obtain ⟨hb, ha⟩ := hearlier e he1 he2
    rcases le_total k n with hle | hle
    · have : k = n - (e : Int) := by rw [he, abs_of_nonpos (by omega)]; omega
      have hp : isCandidateBefore s (some n) e q = true :=
        (isCandidateBefore_iff s n e q).mpr ⟨hqs, this ▸ hk, hqt⟩
      exact absurd hp (List.find?_eq_none.mp hb q hq)
    · have : k = n + (e : Int) := by rw [he, abs_of_nonneg (by omega)]; omega
      have hp : isCandidateAfter s (some n) e q = true :=
        (isCandidateAfter_iff s n e q).mpr ⟨hqs, this ▸ hk, hqt⟩
      exact absurd hp (List.find?_eq_none.mp ha q hq)
  have hdpos : (0 : Int) < d := by omega
  rcases hfound with hb | ⟨hb, ha⟩
  · obtain ⟨hmem, hp⟩ := find?_mem_pred hb
    obtain ⟨h1, h2, h3⟩ := (isCandidateBefore_iff s n d r).mp hp
    have habs : |n - (d : Int) - n| = d := by
      rw [abs_of_nonpos (by omega)]; omega
    refine ⟨hmem, h1, h3, n - d, h2, by omega, ?_, ?_⟩
    · intro q hq hqs hqt k hk hkn
      rw [habs]
      exact hmin q hq hqs hqt k hk hkn
    · intro _ _
      rw [habs]
  · obtain ⟨hmem, hp⟩ := find?_mem_pred ha
    obtain ⟨h1, h2, h3⟩ := (isCandidateAfter_iff s n d r).mp hp
    have habs : |n + (d : Int) - n| = d := by
      rw [abs_of_nonneg (by omega)]; omega
    refine ⟨hmem, h1, h3, n + d, h2, by omega, ?_, ?_⟩
    · intro q hq hqs hqt k hk hkn
      rw [habs]
      exact hmin q hq hqs hqt k hk hkn
    · rintro ⟨q, hq, hqs, hqt, hqn⟩ _
      rw [habs] at hqn
      have hp : isCandidateBefore s (some n) d q = true :=
        (isCandidateBefore_iff s n d q).mpr ⟨hqs, hqn, hqt⟩
      exact absurd hp (List.find?_eq_none.mp hb q hq)

/-- Witness of C1: in section B2 with spots 1 to 5, spot 3 occupied and the
others available, the search from spot 3 returns spot 2, and the theorem
applies to it. -/
theorem findNearestFreeSpot_nearest_witness :
    findNearestFreeSpot scenarioB2 "B2" (some 3) = some (mkRecord "B2" 2 "available") ∧
      (mkRecord "B2" 2 "available" ∈ scenarioB2 ∧
        (mkRecord "B2" 2 "available").sectionName = some "B2" ∧
        (mkRecord "B2" 2 "available").status = some "available" ∧
        ∃ m : Int, (mkRecord "B2" 2 "available").spot_number = some m ∧ m ≠ 3 ∧
          (∀ q ∈ scenarioB2, q.sectionName = some "B2" → q.status = some "available" →
            ∀ k : Int, q.spot_number = some k → k ≠ 3 → |m - 3| ≤ |k - 3|) ∧
          ((∃ q ∈ scenarioB2, q.sectionName = some "B2" ∧ q.status = some "available" ∧
              q.spot_number = some (3 - |m - 3|)) →
            (∃ q ∈ scenarioB2, q.sectionName = some "B2" ∧ q.status = some "available" ∧
              q.spot_number = some (3 + |m - 3|)) →
            m = 3 - |m - 3|)) :=
  ⟨by decide, findNearestFreeSpot_nearest scenarioB2 "B2" 3 _ (by decide)⟩

/-- Under contiguity a section holding spot number `m` makes the snapshot at
least `m` records long. -/
theorem length_ge_of_contiguous (data : List Record) (hc : ContiguousFromOne data)
    (r : Record) (hr : r ∈ data) (m : Int) (hm : r.spot_number = some m) :
    m ≤ (data.length : Int) := by
  obtain ⟨m', hm', h1, hall⟩ := hc r hr
  rw [hm] at hm'
  obtain rfl : m = m' := Option.some.inj hm'
  -- the numbers 1 .. m all occur among the spot numbers of the snapshot
  have hsub : (List.range m.toNat).map (fun j : Nat => some ((j : Int) + 1)) ⊆
      data.map (fun q => q.spot_number) := by
    intro x hx
    obtain ⟨j, hj, rfl⟩ := List.mem_map.mp hx
    have hj' : j < m.toNat := List.mem_range.mp hj
    rcases Nat.eq_or_lt_of_le (show j + 1 ≤ m.toNat by omega) with heq | hlt
    · have : ((j : Int) + 1) = m := by omega
      rw [this]
      exact List.mem_map.mpr ⟨r, hr, hm⟩
    · obtain ⟨q, hq, _, hqn⟩ := hall ((j : Int) + 1) (by omega) (by omega)
      exact List.mem_map.mpr ⟨q, hq, hqn⟩
  have hnd : ((List.range m.toNat).map (fun j : Nat => some ((j : Int) + 1))).Nodup := by
    refine (List.nodup_range _).map ?_
    intro a b hab
    simp only [Option.some.injEq] at hab
    omega
  have hlen := (List.subperm_of_subset hnd hsub).length_le
  simp only [List.length_map, List.length_range] at hlen
  omega

/-- C2. On a snapshot that satisfies the data-model invariant, for a record
`(s, n)` of the snapshot with status "occupied", `findNearestFreeSpot` returns
null if and only if no record of section `s` has status "available". -/
theorem findNearestFreeSpot_none_iff (data : List Record) (s : String) (n : Int)
    (hinv : SnapshotInvariant data)
    (hocc : ∃ r ∈ data, r.sectionName = some s ∧ r.spot_number = some n ∧
      r.status = some "occupied") :
    findNearestFreeSpot data s (some n) = none ↔
      ∀ q ∈ data, q.sectionName = some s → q.status ≠ some "available" := by
  obtain ⟨huniq, hcont⟩ := hinv
  obtain ⟨r, hr, hrs, hrn, hrt⟩ := hocc
  unfold findNearestFreeSpot
  rw [searchFrom_eq_none]
  constructor
  · intro hnone q hq hqs hqt
    obtain ⟨k, hk, hk1, -⟩ := hcont q hq
    have hn1 : 1 ≤ n := by
      obtain ⟨n', hn', h1, -⟩ := hcont r hr
      rw [hrn] at hn'
      obtain rfl : n = n' := Option.some.inj hn'
      exact h1
    -- uniqueness of the pair makes the two spot numbers differ
    have hne : q ≠ r := by
      rintro rfl
      rw [hrt] at hqt
      exact absurd hqt (by decide)
    have hsym : Symmetric (fun a b : Record =>
        ¬ (a.sectionName = b.sectionName ∧ a.spot_number = b.spot_number)) := by
      intro a b hab hba
      exact hab ⟨hba.1.symm, hba.2.symm⟩
    have hkn : k ≠ n := by
      rintro rfl
      exact huniq.forall hsym hq hr hne ⟨hqs.trans hrs.symm, hk.trans hrn.symm⟩
    have hklen := length_ge_of_contiguous data hcont q hq k hk
    have hnlen := length_ge_of_contiguous data hcont r hr n hrn
    rcases lt_or_gt_of_ne hkn with hlt | hgt
    · obtain ⟨e, he⟩ : ∃ e : Nat, (e : Int) = n - k := ⟨(n - k).toNat, by omega⟩
      have hb := (hnone e (by omega) (by omega)).1
      have hp : isCandidateBefore s (some n) e q = true :=
        (isCandidateBefore_iff s n e q).mpr ⟨hqs, by rw [hk, he]; congr 1; omega, hqt⟩
      exact absurd hp (List.find?_eq_none.mp hb q hq)
    · obtain ⟨e, he⟩ : ∃ e : Nat, (e : Int) = k - n := ⟨(k - n).toNat, by omega⟩
      have ha := (hnone e (by omega) (by omega)).2
      have hp : isCandidateAfter s (some n) e q = true :=
        (isCandidateAfter_iff s n e q).mpr ⟨hqs, by rw [hk, he]; congr 1; omega, hqt⟩
      exact absurd hp (List.find?_eq_none.mp ha q hq)
  · intro hno e _ _
    constructor
    · rw [List.find?_eq_none]
      intro q hq hp
      obtain ⟨hqs, -, hqt⟩ := (isCandidateBefore_iff s n e q).mp hp
      exact hno q hq hqs hqt
    · rw [List.find?_eq_none]
      intro q hq hp
      obtain ⟨hqs, -, hqt⟩ := (isCandidateAfter_iff s n e q).mp hp
      exact hno q hq hqs hqt

theorem scenarioA3_invariant : SnapshotInvariant scenarioA3 := by
  refine ⟨by unfold UniquePairs scenarioA3 mkRecord; decide, ?_⟩
  intro r hr
  simp only [scenarioA3, mkRecord, List.mem_cons, List.mem_singleton, List.not_mem_nil,
    or_false] at hr
  rcases hr with rfl | rfl | rfl
  · exact ⟨1, rfl, le_refl _, fun j h1 h2 => by omega⟩
  · refine ⟨2, rfl, by decide, fun j h1 h2 => ?_⟩
    obtain rfl : j = 1 := by omega
    exact ⟨mkRecord "A" 1 "occupied", by simp [scenarioA3], rfl, rfl⟩
  · refine ⟨3, rfl, by decide, fun j h1 h2 => ?_⟩
    obtain rfl | rfl : j = 1 ∨ j = 2 := by omega
    · exact ⟨mkRecord "A" 1 "occupied", by simp [scenarioA3], rfl, rfl⟩
    · exact ⟨mkRecord "A" 2 "occupied", by simp [scenarioA3], rfl, rfl⟩

/-- Witness of C2: section A with spots 1 and 2 occupied and spot 3 available
satisfies the invariant, and the search from the occupied spot 1 is not null
exactly because spot 3 is available. -/
theorem findNearestFreeSpot_none_iff_witness :
    SnapshotInvariant scenarioA3 ∧
      (∃ r ∈ scenarioA3, r.sectionName = some "A" ∧ r.spot_number = some 1 ∧
        r.status = some "occupied") ∧
      findNearestFreeSpot scenarioA3 "A" (some 1) = some (mkRecord "A" 3 "available") ∧
      (findNearestFreeSpot scenarioA3 "A" (some 1) = none ↔
        ∀ q ∈ scenarioA3, q.sectionName = some "A" → q.status ≠ some "available") :=
  ⟨scenarioA3_invariant, ⟨mkRecord "A" 1 "occupied", by decide, rfl, rfl, rfl⟩, by decide,
    findNearestFreeSpot_none_iff scenarioA3 "A" 1 scenarioA3_invariant
      ⟨mkRecord "A" 1 "occupied", by decide, rfl, rfl, rfl⟩⟩

/-! ## Theorems: colouring -/

/-- The element a selector selects carries the section id and number asked
for. -/
theorem selectSpot_some {spots : List SpotEl} {s : String} {n : Option Int} {j : Nat}
    (h : selectSpot spots s n = some j) :
    ∃ e, spots[j]? = some e ∧ e.parentId = s ∧ some e.spotNumber = n := by
  unfold selectSpot at h
  simp only at h
  split at h
  · rename_i hlt
    simp only [Option.some.injEq] at h
    subst h
    refine ⟨_, List.getElem?_eq_getElem hlt, ?_⟩
    have hp := List.findIdx_getElem (w := hlt)
    simpa using hp
  · exact Option.noConfusion h

theorem querySpot_of_identifier {spots : List SpotEl} {s : String} (n : Option Int)
    (h : isCssIdentifier s = true) : querySpot spots s n = .element (selectSpot spots s n) := by
  unfold querySpot
  simp only [h, if_true]

/-- The element `querySpot` finds carries the section id and number asked for. -/
theorem querySpot_some {spots : List SpotEl} {s : String} {n : Option Int} {j : Nat}
    (h : querySpot spots s n = .element (some j)) :
    ∃ e, spots[j]? = some e ∧ e.parentId = s ∧ some e.spotNumber = n := by
  unfold querySpot at h
  split at h
  · exact selectSpot_some (Option.some.inj (by simpa using h) ▸ rfl)
  · exact Query.noConfusion h

theorem setFill_getElem?_ne (spots : List SpotEl) {i j : Nat} (c : String) (h : j ≠ i) :
    (setFill spots j c)[i]? = spots[i]? := by
  unfold setFill
  exact List.getElem?_modify_ne _ _ h

/-- A property of the state kept by every call of the callback is kept by
`forEach`. -/
theorem forEach_invariant (P : State → Prop) (step : State → Record → Outcome)
    (data : List Record) (hstep : ∀ st, ∀ r ∈ data, P st → P (step st r).state) :
    ∀ st, P st → P (forEach step st data).state := by
  induction data with
  | nil => intro st h; exact h
  | cons r rest ih =>
    intro st h
    unfold forEach
    have h1 := hstep st r (List.mem_cons_self _ _) h
    by_cases ht : (step st r).thrown = true
    · simp only [ht, if_true]; exact h1
    · simp only [ht, if_false, Bool.false_eq_true]
      exact ih (fun st' r' hr' => hstep st' r' (List.mem_cons_of_mem _ hr')) _ h1

/-- A record that does not name the spot at index `i` leaves it as it is. -/
theorem colourStep_other (st : State) (r : Record) (i : Nat) (e : SpotEl)
    (he : st.spots[i]? = some e) (hno : matchesSpot r e = false) :
    (colourStep st r).state.spots[i]? = some e := by
  unfold colourStep
  cases hs : r.sectionName with
  | none => exact he
  | some raw =>
    simp only
    cases hq : querySpot st.spots (jsReplace raw "_" "-") r.spot_number with
    | syntaxError => exact he
    | element o =>
      cases o with
      | none => exact he
      | some j =>
      simp only
      by_cases hji : j = i
      · subst hji
        obtain ⟨e', he', hp, hn⟩ := querySpot_some hq
        rw [he] at he'
        obtain rfl : e = e' := Option.some.inj he'
        have : matchesSpot r e = true := by
          simp [matchesSpot, hs, hp, hn.symm]
        rw [this] at hno
        exact Bool.noConfusion hno
      · rw [setFill_getElem?_ne _ _ hji]
        exact he

/-- C3, as the code has it. After `updateSpotColors(records)` every spot that
no record of `records` names has the colour darkgray of an unknown status,
whatever colour it had before: the function first resets every spot. -/
theorem updateSpotColors_unnamed_darkgray (records : List Record) (st : State) (i : Nat)
    (el : SpotEl) (hel : st.spots[i]? = some el)
    (hun : ∀ r ∈ records, matchesSpot r el = false) :
    (updateSpotColors records st).state.spots[i]? = some { el with fill := "darkgray" } := by
  unfold updateSpotColors
  refine forEach_invariant (fun s => s.spots[i]? = some { el with fill := "darkgray" })
    colourStep records ?_ _ ?_
  · intro s r hr hs
    exact colourStep_other s r i _ hs (hun r hr)
  · simp [hel]

/-- Witness of the amended C3 on the sample diagram: spot 2 of section A is
not named by the one record and ends darkgray. -/
theorem updateSpotColors_unnamed_darkgray_witness :
    diagramA.spots[1]? = some ⟨"section-A", 2, 208.5, 50, "cyan"⟩ ∧
      (∀ r ∈ [mkRecord "section-A" 1 "occupied"],
        matchesSpot r ⟨"section-A", 2, 208.5, 50, "cyan"⟩ = false) ∧
      (updateSpotColors [mkRecord "section-A" 1 "occupied"] diagramA).state.spots[1]? =
        some { (⟨"section-A", 2, 208.5, 50, "cyan"⟩ : SpotEl) with fill := "darkgray" } :=
  ⟨rfl, by decide,
    updateSpotColors_unnamed_darkgray [mkRecord "section-A" 1 "occupied"] diagramA 1
      ⟨"section-A", 2, 208.5, 50, "cyan"⟩ rfl (by decide)⟩

/-- Counterexample to C3: on the sample diagram spot 2 of section A is cyan,
the one record of the snapshot does not name it, and after `updateSpotColors`
it is darkgray, not cyan. -/
theorem updateSpotColors_resets_unnamed_spot :
    (diagramA.spots[1]?).map (fun el => (el.parentId, el.spotNumber, el.fill)) =
        some ("section-A", 2, "cyan") ∧
      (∀ r ∈ [mkRecord "section-A" 1 "occupied"],
        matchesSpot r ⟨"section-A", 2, 208.5, 50, "cyan"⟩ = false) ∧
      ((updateSpotColors [mkRecord "section-A" 1 "occupied"] diagramA).state.spots[1]?).map
        (fun el => (el.parentId, el.spotNumber, el.fill)) = some ("section-A", 2, "darkgray") := by
  decide

/-! ## Theorems: malformed records -/

theorem forEach_thrown_false (step : State → Record → Outcome) (data : List Record)
    (hstep : ∀ st, ∀ r ∈ data, (step st r).thrown = false) :
    ∀ st, (forEach step st data).thrown = false := by
  induction data with
  | nil => intro st; rfl
  | cons r rest ih =>
    intro st
    unfold forEach
    simp only [hstep st r (List.mem_cons_self _ _), Bool.false_eq_true, if_false]
    exact ih (fun st' r' hr' => hstep st' r' (List.mem_cons_of_mem _ hr')) _

theorem forEach_append (step : State → Record → Outcome) (pre post : List Record) :
    ∀ st, forEach step st (pre ++ post) =
      if (forEach step st pre).thrown then forEach step st pre
      else forEach step (forEach step st pre).state post := by
  induction pre with
  | nil => intro st; simp [forEach]
  | cons r rest ih =>
    intro st
    simp only [List.cons_append, forEach]
    by_cases ht : (step st r).thrown = true
    · simp [ht]
    · simp only [ht, Bool.false_eq_true, if_false]
      exact ih _

theorem findNearestFreeSpot_section {data : List Record} {s : String} {n : Option Int}
    {r : Record} (h : findNearestFreeSpot data s n = some r) : r.sectionName = some s := by
  obtain ⟨d, -, -, hfound, -⟩ := searchFrom_some data s n r _ _ h
  rcases hfound with hb | ⟨-, ha⟩
  · have hp := (find?_mem_pred hb).2
    simp only [isCandidateBefore, Bool.and_eq_true, beq_iff_eq] at hp
    exact hp.1.1
  · have hp := (find?_mem_pred ha).2
    simp only [isCandidateAfter, Bool.and_eq_true, beq_iff_eq] at hp
    exact hp.1.1

/-- The callback of `updateSpotColors` throws exactly on a record with no
section or with a section that gives an invalid selector. -/
theorem colourStep_thrown (st : State) (r : Record) :
    (colourStep st r).thrown = !hasValidSection r := by
  unfold colourStep hasValidSection
  cases r.sectionName with
  | none => rfl
  | some raw =>
    simp only
    unfold querySpot
    cases hid : isCssIdentifier (jsReplace raw "_" "-") with
    | true =>
      simp only [if_true]
      cases selectSpot st.spots (jsReplace raw "_" "-") r.spot_number <;> rfl
    | false => rfl

theorem drawPathToSpot_thrown (st : State) (s : String) (n : Option Int) (s' : String)
    (n' : Option Int) (hs : isCssIdentifier s = true) (hs' : isCssIdentifier s' = true) :
    (drawPathToSpot st s n s' n').thrown = false := by
  unfold drawPathToSpot
  rw [querySpot_of_identifier n hs, querySpot_of_identifier n' hs']
  simp only
  split
  · split <;> rfl
  · rfl

/-- The callback of `updatePathForOccupiedSpots` does not throw on a record
whose section gives a valid selector. -/
theorem pathStep_thrown (data : List Record) (st : State) (r : Record)
    (hr : hasValidSection r = true) : (pathStep data st r).thrown = false := by
  unfold hasValidSection at hr
  unfold pathStep
  cases hs : r.sectionName with
  | none => rw [hs] at hr; exact absurd hr (by decide)
  | some raw =>
    rw [hs] at hr
    simp only at hr
    simp only
    split
    · cases hf : findNearestFreeSpot data (jsReplace raw "_" "-") r.spot_number with
      | none => rfl
      | some f =>
        simp only
        have hfs := findNearestFreeSpot_section hf
        rw [hfs]
        exact drawPathToSpot_thrown _ _ _ _ _ hr hr
    · rfl

theorem removePathForSpot_spots (st : State) (s : String) (n : Option Int) :
    (removePathForSpot st s n).spots = st.spots := by
  unfold removePathForSpot
  simp only
  split <;> rfl

theorem drawPathToSpot_spots (st : State) (s : String) (n : Option Int) (s' : String)
    (n' : Option Int) : (drawPathToSpot st s n s' n').state.spots = st.spots := by
  unfold drawPathToSpot
  split
  · rfl
  · split
    · rfl
    · split
      · split <;> rfl
      · rfl

theorem pathStep_spots (data : List Record) (st : State) (r : Record) :
    (pathStep data st r).state.spots = st.spots := by
  unfold pathStep
  cases r.sectionName with
  | none => rfl
  | some raw =>
    simp only
    split
    · cases findNearestFreeSpot data (jsReplace raw "_" "-") r.spot_number with
      | none => exact removePathForSpot_spots _ _ _
      | some f =>
        simp only
        rw [drawPathToSpot_spots, removePathForSpot_spots]
    · rfl

theorem updatePathForOccupiedSpots_spots (data : List Record) (st : State) :
    (updatePathForOccupiedSpots data st).state.spots = st.spots := by
  unfold updatePathForOccupiedSpots
  exact forEach_invariant (fun s => s.spots = st.spots) (pathStep data) data
    (fun s r _ hs => (pathStep_spots data s r).trans hs) st rfl

theorem applySnapshot_spots (data : List Record) (st : State) :
    (applySnapshot data st).state.spots = (updateSpotColors data st).state.spots := by
  unfold applySnapshot
  simp only
  split
  · rfl
  · exact updatePathForOccupiedSpots_spots _ _

theorem findIdx_keys (s : String) (n : Option Int) (spots : List SpotEl) :
    spots.findIdx (fun el => el.parentId == s && some el.spotNumber == n) =
      (spotKeys spots).findIdx (fun k => k.1 == s && some k.2 == n) := by
  induction spots with
  | nil => rfl
  | cons e rest ih =>
    simp only [spotKeys, List.map_cons, List.findIdx_cons]
    simp only [spotKeys] at ih
    rw [ih]

/-- The element `querySpot` finds depends only on the ids and numbers. -/
theorem querySpot_congr {spots spots' : List SpotEl} (h : spotKeys spots = spotKeys spots')
    (s : String) (n : Option Int) : querySpot spots s n = querySpot spots' s n := by
  have hlen : spots.length = spots'.length := by
    have := congrArg List.length h
    simpa [spotKeys] using this
  unfold querySpot selectSpot
  simp only [findIdx_keys, h, hlen]

theorem setFill_keys (spots : List SpotEl) (j : Nat) (c : String) :
    spotKeys (setFill spots j c) = spotKeys spots := by
  unfold setFill spotKeys
  apply List.ext_getElem?
  intro k
  simp only [List.getElem?_map, List.getElem?_modify]
  by_cases hjk : j = k
  · subst hjk
    cases spots[j]? <;> simp
  · cases spots[k]? <;> simp [hjk]

theorem setFill_getElem?_eq (spots : List SpotEl) (i : Nat) (c : String) :
    (setFill spots i c)[i]? = (spots[i]?).map (fun el => { el with fill := c }) := by
  unfold setFill
  exact List.getElem?_modify_eq _ _ _

/-- Two states with the same ids and numbers that agree on the spot at index
`i` still do after the callback of `updateSpotColors` ran on both. -/
theorem colourStep_agree (i : Nat) (s s' : State) (r : Record)
    (hk : spotKeys s.spots = spotKeys s'.spots) (hi : s.spots[i]? = s'.spots[i]?) :
    spotKeys (colourStep s r).state.spots = spotKeys (colourStep s' r).state.spots ∧
      (colourStep s r).state.spots[i]? = (colourStep s' r).state.spots[i]? ∧
      (colourStep s r).thrown = (colourStep s' r).thrown := by
  refine ⟨?_, ?_, by rw [colourStep_thrown, colourStep_thrown]⟩
  · unfold colourStep
    cases r.sectionName with
    | none => exact hk
    | some raw =>
      simp only
      rw [querySpot_congr hk]
      cases querySpot s'.spots (jsReplace raw "_" "-") r.spot_number with
      | syntaxError => exact hk
      | element o =>
        cases o with
        | none => exact hk
        | some j => simp only [setFill_keys]; exact hk
  · unfold colourStep
    cases r.sectionName with
    | none => exact hi
    | some raw =>
      simp only
      rw [querySpot_congr hk]
      cases querySpot s'.spots (jsReplace raw "_" "-") r.spot_number with
      | syntaxError => exact hi
      | element o =>
        cases o with
        | none => exact hi
        | some j =>
        simp only
        by_cases hji : j = i
        · subst hji
          rw [setFill_getElem?_eq, setFill_getElem?_eq, hi]
        · rw [setFill_getElem?_ne _ _ hji, setFill_getElem?_ne _ _ hji]
          exact hi

theorem forEach_colourStep_agree (i : Nat) (data : List Record) :
    ∀ s s' : State, spotKeys s.spots = spotKeys s'.spots → s.spots[i]? = s'.spots[i]? →
      (forEach colourStep s data).state.spots[i]? =
          (forEach colourStep s' data).state.spots[i]? ∧
        (forEach colourStep s data).thrown = (forEach colourStep s' data).thrown := by
  induction data with
  | nil => intro s s' _ hi; exact ⟨hi, rfl⟩
  | cons r rest ih =>
    intro s s' hk hi
    obtain ⟨hk1, hi1, ht1⟩ := colourStep_agree i s s' r hk hi
    unfold forEach
    simp only
    rw [← ht1]
    by_cases ht : (colourStep s r).thrown = true
    · simp only [ht, if_true]
      exact ⟨hi1, by rw [ht] at ht1; exact ht1⟩
    · simp only [ht, Bool.false_eq_true, if_false]
      exact ih _ _ hk1 hi1

theorem colourStep_keys (s : State) (r : Record) :
    spotKeys (colourStep s r).state.spots = spotKeys s.spots := by
  unfold colourStep
  cases r.sectionName with
  | none => rfl
  | some raw =>
    simp only
    cases querySpot s.spots (jsReplace raw "_" "-") r.spot_number with
    | syntaxError => rfl
    | element o =>
      cases o with
      | none => rfl
      | some j => exact setFill_keys _ _ _

theorem forEach_colourStep_keys (data : List Record) (st : State) :
    spotKeys (forEach colourStep st data).state.spots = spotKeys st.spots :=
  forEach_invariant (fun s => spotKeys s.spots = spotKeys st.spots) colourStep data
    (fun s r _ hs => (colourStep_keys s r).trans hs) st rfl

theorem matchesSpot_congr (m : Record) (e el : SpotEl) (hp : e.parentId = el.parentId)
    (hn : e.spotNumber = el.spotNumber) : matchesSpot m e = matchesSpot m el := by
  unfold matchesSpot
  rw [hp, hn]

/-- The element at an index keeps its id and number when the keys are equal. -/
theorem getElem?_of_keys {spots spots' : List SpotEl} (h : spotKeys spots = spotKeys spots')
    {i : Nat} {el : SpotEl} (hel : spots'[i]? = some el) :
    ∃ e, spots[i]? = some e ∧ e.parentId = el.parentId ∧ e.spotNumber = el.spotNumber := by
  have h1 : (spotKeys spots)[i]? = (spotKeys spots')[i]? := by rw [h]
  simp only [spotKeys, List.getElem?_map, hel, Option.map_some'] at h1
  cases he : spots[i]? with
  | none => rw [he] at h1; exact Option.noConfusion h1
  | some e =>
    rw [he] at h1
    simp only [Option.map_some', Option.some.injEq, Prod.mk.injEq] at h1
    exact ⟨e, rfl, h1.1, h1.2⟩

/-- Removing from a snapshot a record whose section gives a valid selector
changes neither the colour `updateSpotColors` gives a spot the record does not
name, nor whether the function throws. -/
theorem updateSpotColors_remove_record (pre post : List Record) (m : Record) (st : State)
    (hm : hasValidSection m = true) (i : Nat) (el : SpotEl) (hel : st.spots[i]? = some el)
    (hno : matchesSpot m el = false) :
    (updateSpotColors (pre ++ m :: post) st).state.spots[i]? =
        (updateSpotColors (pre ++ post) st).state.spots[i]? ∧
      (updateSpotColors (pre ++ m :: post) st).thrown =
        (updateSpotColors (pre ++ post) st).thrown := by
  unfold updateSpotColors
  generalize hst0 :
    ({ st with spots := st.spots.map (fun el => { el with fill := "darkgray" }) } : State) = st0
  have hk0 : spotKeys st0.spots = spotKeys st.spots := by
    subst hst0
    simp [spotKeys, Function.comp_def]
  rw [forEach_append, forEach_append]
  by_cases ht : (forEach colourStep st0 pre).thrown = true
  · simp only [ht, if_true, and_self]
  · simp only [ht, Bool.false_eq_true, if_false]
    generalize hS : (forEach colourStep st0 pre).state = S
    have hkS : spotKeys S.spots = spotKeys st.spots := by
      subst hS
      exact (forEach_colourStep_keys pre st0).trans hk0
    obtain ⟨e, he, hp, hn⟩ := getElem?_of_keys hkS hel
    have hmt : (colourStep S m).thrown = false := by
      rw [colourStep_thrown, hm]
      rfl
    have hstep : forEach colourStep S (m :: post) =
        forEach colourStep (colourStep S m).state post := by
      conv_lhs => unfold forEach
      simp only [hmt, Bool.false_eq_true, if_false]
    rw [hstep]
    refine forEach_colourStep_agree i post _ _ (colourStep_keys S m) ?_
    rw [colourStep_other S m i e he (by rw [matchesSpot_congr m e el hp hn]; exact hno), he]

/-- C4, as the code has it. On a snapshot in which every record has a section
that, once rewritten, is a CSS identifier, as when the malformed records lack
only `spot_number` or `status`, applying the snapshot raises no error, and
every spot that a record `m` of the snapshot does not name gets the colour it
gets from the snapshot with `m` removed. -/
theorem applySnapshot_record_with_section (pre post : List Record) (m : Record) (st : State)
    (hsec : ∀ r ∈ pre ++ m :: post, hasValidSection r = true) :
    (applySnapshot (pre ++ m :: post) st).thrown = false ∧
      ∀ (i : Nat) (el : SpotEl), st.spots[i]? = some el → matchesSpot m el = false →
        (applySnapshot (pre ++ m :: post) st).state.spots[i]? =
          (applySnapshot (pre ++ post) st).state.spots[i]? := by
  constructor
  · have h1 : (updateSpotColors (pre ++ m :: post) st).thrown = false := by
      unfold updateSpotColors
      refine forEach_thrown_false colourStep _ (fun s r hr => ?_) _
      rw [colourStep_thrown, hsec r hr]
      rfl
    unfold applySnapshot
    simp only [h1, Bool.false_eq_true, if_false]
    unfold updatePathForOccupiedSpots
    exact forEach_thrown_false _ _ (fun s r hr => pathStep_thrown _ s r (hsec r hr)) _
  · intro i el hel hno
    rw [applySnapshot_spots, applySnapshot_spots]
    exact (updateSpotColors_remove_record pre post m st
      (hsec m (by simp)) i el hel hno).1

/-- Witness of the amended C4: a record for section A that lacks its spot
number, between two well-formed records, on the sample diagram. -/
theorem applySnapshot_record_with_section_witness :
    (∀ r ∈ [mkRecord "section-A" 1 "occupied"] ++
        (⟨some "section-A", none, some "occupied"⟩ : Record) ::
          [mkRecord "section-A" 2 "available"], hasValidSection r = true) ∧
      ((applySnapshot ([mkRecord "section-A" 1 "occupied"] ++
          (⟨some "section-A", none, some "occupied"⟩ : Record) ::
            [mkRecord "section-A" 2 "available"]) diagramA).thrown = false ∧
        ∀ (i : Nat) (el : SpotEl), diagramA.spots[i]? = some el →
          matchesSpot ⟨some "section-A", none, some "occupied"⟩ el = false →
          (applySnapshot ([mkRecord "section-A" 1 "occupied"] ++
              (⟨some "section-A", none, some "occupied"⟩ : Record) ::
                [mkRecord "section-A" 2 "available"]) diagramA).state.spots[i]? =
            (applySnapshot ([mkRecord "section-A" 1 "occupied"] ++
              [mkRecord "section-A" 2 "available"]) diagramA).state.spots[i]?) :=
  ⟨by decide,
    applySnapshot_record_with_section [mkRecord "section-A" 1 "occupied"]
      [mkRecord "section-A" 2 "available"] ⟨some "section-A", none, some "occupied"⟩ diagramA
      (by decide)⟩

/-- Counterexample to C4. A record that lacks its section makes
`updateSpotColors` throw, and the well-formed record after it, for spot 2 of
section A, is not applied: the spot ends darkgray, while the snapshot without
the malformed record paints it red. The same happens with a record that lacks
its status and whose section `1A` gives an invalid selector. A record that
lacks its status repaints the spot it names gray, while the snapshot without
it leaves the spot cyan. -/
theorem applySnapshot_malformed_record_differs :
    (updateSpotColors snapshotNoSection diagramA).thrown = true ∧
      (applySnapshot snapshotNoSection diagramA).thrown = true ∧
      fillAt (applySnapshot snapshotNoSection diagramA).state 1 = some "darkgray" ∧
      (applySnapshot snapshotBadSelector diagramA).thrown = true ∧
      fillAt (applySnapshot snapshotBadSelector diagramA).state 1 = some "darkgray" ∧
      fillAt (applySnapshot [mkRecord "section-A" 2 "occupied"] diagramA).state 1 =
        some "red" ∧
      (applySnapshot snapshotNoStatus diagramA).thrown = false ∧
      fillAt (applySnapshot snapshotNoStatus diagramA).state 1 = some "gray" ∧
      fillAt (applySnapshot [mkRecord "section-A" 2 "available"] diagramA).state 1 =
        some "cyan" := by
  decide

/-! ## Theorems: the suggested path -/

/-- The callback of `updatePathForOccupiedSpots` on an occupied record: when
the search run on the rewritten section name succeeds and the two elements
exist, the element with the id of the spot's path is removed if there is one
and exactly three segments are appended. -/
theorem pathStep_draws (data : List Record) (st : State) (spot r : Record) (raw : String)
    (i j : Nat) (fromSpot toSpot : SpotEl)
    (hs : spot.sectionName = some raw)
    (hocc : spot.status = some "occupied")
    (hfind : findNearestFreeSpot data (jsReplace raw "_" "-") spot.spot_number = some r)
    (hi : querySpot st.spots (jsReplace raw "_" "-") spot.spot_number = .element (some i))
    (hfrom : st.spots[i]? = some fromSpot)
    (hj : querySpot st.spots (jsReplace raw "_" "-") r.spot_number = .element (some j))
    (hto : st.spots[j]? = some toSpot) :
    pathStep data st spot =
      ⟨{ removePathForSpot st (jsReplace raw "_" "-") spot.spot_number with
          children :=
            (removePathForSpot st (jsReplace raw "_" "-") spot.spot_number).children ++
              [pathNode 421 134 fromSpot.x fromSpot.y,
               pathNode fromSpot.x fromSpot.y fromSpot.x toSpot.y,
               pathNode fromSpot.x toSpot.y toSpot.x toSpot.y] }, false⟩ := by
  have hrs := findNearestFreeSpot_section hfind
  unfold pathStep
  simp only [hs, hocc, if_true, hfind, hrs, Option.getD_some]
  unfold drawPathToSpot
  simp only [removePathForSpot_spots, hi, hj, hfrom, hto, drawPath, List.append_assoc,
    List.singleton_append, List.cons_append, List.nil_append]

theorem forEach_pathStep_spots (data records : List Record) (st : State) :
    (forEach (pathStep data) st records).state.spots = st.spots :=
  forEach_invariant (fun s => s.spots = st.spots) (pathStep data) records
    (fun s r _ hs => (pathStep_spots data s r).trans hs) st rfl

/-- The run of `updatePathForOccupiedSpots(data)` around an occupied record
for which the search on the rewritten section name returns a record `r` and
both elements exist: the records before it are run, the three segments are
appended, and the records after it are run. -/
theorem updatePathForOccupiedSpots_draws_when_found (pre post : List Record)
    (spot r : Record) (st : State) (raw : String) (i j : Nat) (fromSpot toSpot : SpotEl)
    (hpre : (forEach (pathStep (pre ++ spot :: post)) st pre).thrown = false)
    (hs : spot.sectionName = some raw)
    (hocc : spot.status = some "occupied")
    (hfind : findNearestFreeSpot (pre ++ spot :: post) (jsReplace raw "_" "-")
      spot.spot_number = some r)
    (hi : querySpot st.spots (jsReplace raw "_" "-") spot.spot_number = .element (some i))
    (hfrom : st.spots[i]? = some fromSpot)
    (hj : querySpot st.spots (jsReplace raw "_" "-") r.spot_number = .element (some j))
    (hto : st.spots[j]? = some toSpot) :
    updatePathForOccupiedSpots (pre ++ spot :: post) st =
      forEach (pathStep (pre ++ spot :: post))
        { removePathForSpot (forEach (pathStep (pre ++ spot :: post)) st pre).state
            (jsReplace raw "_" "-") spot.spot_number with
          children :=
            (removePathForSpot (forEach (pathStep (pre ++ spot :: post)) st pre).state
              (jsReplace raw "_" "-") spot.spot_number).children ++
              [pathNode 421 134 fromSpot.x fromSpot.y,
               pathNode fromSpot.x fromSpot.y fromSpot.x toSpot.y,
               pathNode fromSpot.x toSpot.y toSpot.x toSpot.y] }
        post := by
  have hsp := forEach_pathStep_spots (pre ++ spot :: post) pre st
  have hstep := pathStep_draws (pre ++ spot :: post)
    (forEach (pathStep (pre ++ spot :: post)) st pre).state spot r raw i j fromSpot toSpot
    hs hocc hfind (by rw [hsp]; exact hi) (by rw [hsp]; exact hfrom)
    (by rw [hsp]; exact hj) (by rw [hsp]; exact hto)
  unfold updatePathForOccupiedSpots
  rw [forEach_append]
  simp only [hpre, Bool.false_eq_true, if_false]
  conv_lhs => unfold forEach
  simp only [hstep, Bool.false_eq_true, if_false]

/-- C5 at the failing input. The snapshot writes the section `section_A`,
with spot 1 occupied and spot 2 available. Both spots exist in the diagram
under the rewritten name `section-A`, and `updateSpotColors` paints them red
and cyan from these records. `updatePathForOccupiedSpots` runs the search on
the rewritten name, which is the section of no record of the snapshot, gets
null where the search on the name as written returns spot 2, and appends no
segment; the same snapshot written with hyphens gets its three segments. -/
theorem updatePathForOccupiedSpots_underscore_draws_nothing :
    querySpot diagramA.spots (jsReplace "section_A" "_" "-") (some 1) = .element (some 0) ∧
      querySpot diagramA.spots (jsReplace "section_A" "_" "-") (some 2) = .element (some 1) ∧
      fillAt (updateSpotColors snapshotUnderscore diagramA).state 0 = some "red" ∧
      fillAt (updateSpotColors snapshotUnderscore diagramA).state 1 = some "cyan" ∧
      findNearestFreeSpot snapshotUnderscore (jsReplace "section_A" "_" "-") (some 1) = none ∧
      findNearestFreeSpot snapshotUnderscore "section_A" (some 1) =
        some (mkRecord "section_A" 2 "available") ∧
      (updatePathForOccupiedSpots snapshotUnderscore diagramA).thrown = false ∧
      (updatePathForOccupiedSpots snapshotUnderscore diagramA).state.children =
        diagramA.children ∧
      (updatePathForOccupiedSpots snapshotHyphen diagramA).state.children =
        diagramA.children ++
          [pathNode 421 134 197.5 50, pathNode 197.5 50 197.5 50,
           pathNode 197.5 50 208.5 50] :=
  ⟨by decide, by decide, by decide, by decide, by decide, by decide, by decide, by decide, rfl⟩

/-! ## Theorems: the click router -/

/-- C8. A click on a spot whose fill is red, or darkred while hovered, raises
the alert and changes nothing else: `lastClickedSpot`, the children of the svg
and with them the path segments, and the spots are as before. -/
theorem onClick_occupied_rejected (st : State) (target : Nat) (spot : SpotEl)
    (hspot : st.spots[target]? = some spot)
    (hfill : spot.fill = "red" ∨ spot.fill = "darkred") :
    onClick st target = ⟨{ st with alerts := st.alerts ++ [occupiedMessage] }, false⟩ ∧
      (onClick st target).state.lastClickedSpot = st.lastClickedSpot ∧
      (onClick st target).state.children = st.children ∧
      pathSegments (onClick st target).state = pathSegments st := by
  have hocc : isOccupiedColour spot.fill = true := by
    rcases hfill with h | h <;> rw [h] <;> decide
  have h : onClick st target = ⟨{ st with alerts := st.alerts ++ [occupiedMessage] }, false⟩ := by
    unfold onClick
    simp only [hspot, hocc, if_true]
  rw [h]
  exact ⟨rfl, rfl, rfl, rfl⟩

/-- Witness of C8: spot 3 of section A of the sample diagram is red. -/
theorem onClick_occupied_rejected_witness :
    diagramA.spots[2]? = some ⟨"section-A", 3, 219.5, 50, "red"⟩ ∧
      (onClick diagramA 2 =
          ⟨{ diagramA with alerts := diagramA.alerts ++ [occupiedMessage] }, false⟩ ∧
        (onClick diagramA 2).state.lastClickedSpot = diagramA.lastClickedSpot ∧
        (onClick diagramA 2).state.children = diagramA.children ∧
        pathSegments (onClick diagramA 2).state = pathSegments diagramA) :=
  ⟨rfl, onClick_occupied_rejected diagramA 2 ⟨"section-A", 3, 219.5, 50, "red"⟩ rfl
    (Or.inl rfl)⟩

/-- C6, as the code has it. A click on a non-occupied spot whose section has
no entry in `routingPaths`, and which is not the last clicked spot, draws no
segment and removes none, and makes the spot the last clicked spot. -/
theorem onClick_no_route (st : State) (target : Nat) (spot : SpotEl)
    (hspot : st.spots[target]? = some spot)
    (hfree : isOccupiedColour spot.fill = false)
    (hroute : routingPaths (jsReplace spot.parentId "section-" "") = RouteLookup.undefined)
    (hlast : st.lastClickedSpot ≠ some target) :
    onClick st target = ⟨{ st with lastClickedSpot := some target }, false⟩ := by
  unfold onClick
  simp only [hspot, hfree, hlast, hroute, if_false, Bool.false_eq_true]

/-- Witness of the amended C6: the one spot of the diagram with section Z. -/
theorem onClick_no_route_witness :
    diagramZ.spots[0]? = some ⟨"section-Z", 1, 10, 10, "darkgray"⟩ ∧
      onClick diagramZ 0 = ⟨{ diagramZ with lastClickedSpot := some 0 }, false⟩ :=
  ⟨rfl, onClick_no_route diagramZ 0 ⟨"section-Z", 1, 10, 10, "darkgray"⟩ rfl (by decide)
    (by decide) (by decide)⟩

/-- Counterexample to C6. Section Z has no entry in `routingPaths` and its
spot is not occupied; the click changes `lastClickedSpot` from null to the
spot. In the state it leaves, with a path segment on the diagram, the next
click on the same spot removes the segment. -/
theorem onClick_no_route_changes_state :
    routingPaths (jsReplace "section-Z" "section-" "") = RouteLookup.undefined ∧
      isOccupiedColour "darkgray" = false ∧
      diagramZ.lastClickedSpot = none ∧
      (onClick diagramZ 0).state.lastClickedSpot = some 0 ∧
      ((onClick (drawPath (onClick diagramZ 0).state 421 134 10 10) 0).state.children.map
        (fun c => c.tagName)) = ["g"] := by
  decide

theorem dropPathsRev_paths_append (ps rest : List Node) (hps : ∀ c ∈ ps, c.tagName = "path") :
    dropPathsRev (ps ++ rest) = dropPathsRev rest := by
  induction ps with
  | nil => rfl
  | cons c cs ih =>
    have hc : c.tagName = "path" := hps c (List.mem_cons_self _ _)
    simp only [List.cons_append, dropPathsRev, hc, if_true]
    exact ih (fun c' hc' => hps c' (List.mem_cons_of_mem _ hc'))

/-- On children that are non-path nodes followed by path elements, with at
least one non-path node, the loop removes exactly the path elements and does
not throw. -/
theorem removeTrailingPaths_split (np ps : List Node) (hnp : ∀ c ∈ np, c.tagName ≠ "path")
    (hps : ∀ c ∈ ps, c.tagName = "path") (hne : np ≠ []) :
    removeTrailingPaths (np ++ ps) = (np, false) := by
  have hrev : dropPathsRev (np ++ ps).reverse = (np.reverse, false) := by
    rw [List.reverse_append,
      dropPathsRev_paths_append _ _ (fun c hc => hps c (List.mem_reverse.mp hc))]
    cases hr : np.reverse with
    | nil => exact absurd (List.reverse_eq_nil_iff.mp hr) hne
    | cons c rest =>
      have hc : c.tagName ≠ "path" :=
        hnp c (List.mem_reverse.mp (by rw [hr]; exact List.mem_cons_self _ _))
      simp only [dropPathsRev, hc, if_false]
  unfold removeTrailingPaths
  rw [hrev]
  simp

theorem AppendsPaths.refl (st : State) : AppendsPaths st st :=
  ⟨rfl, rfl, rfl, [], by simp, by simp⟩

theorem AppendsPaths.trans {a b c : State} (h1 : AppendsPaths a b) (h2 : AppendsPaths b c) :
    AppendsPaths a c := by
  obtain ⟨hs1, hl1, ha1, segs1, hc1, hp1⟩ := h1
  obtain ⟨hs2, hl2, ha2, segs2, hc2, hp2⟩ := h2
  refine ⟨hs2.trans hs1, hl2.trans hl1, ha2.trans ha1, segs1 ++ segs2, ?_, ?_⟩
  · rw [hc2, hc1, List.append_assoc]
  · intro x hx
    rcases List.mem_append.mp hx with h | h
    · exact hp1 x h
    · exact hp2 x h

theorem drawPath_appends (st : State) (a b c d : Rat) : AppendsPaths st (drawPath st a b c d) :=
  ⟨rfl, rfl, rfl, [pathNode a b c d], rfl, by simp [pathNode]⟩

theorem drawWaypoints_appends (ids : List Nat) :
    ∀ (st : State) (x y : Rat), AppendsPaths st (drawWaypoints st x y ids).1 := by
  induction ids with
  | nil => intro st x y; exact AppendsPaths.refl st
  | cons id rest ih =>
    intro st x y
    unfold drawWaypoints
    cases waypointAt id with
    | none => exact AppendsPaths.refl st
    | some w => exact (drawPath_appends st x y w.x w.y).trans (ih _ _ _)

theorem drawApproach_appends (st : State) (s : String) (a b c d : Rat) :
    AppendsPaths st (drawApproach st s a b c d) := by
  unfold drawApproach
  split
  · exact (drawPath_appends _ _ _ _ _).trans (drawPath_appends _ _ _ _ _)
  · split
    · exact (drawPath_appends _ _ _ _ _).trans (drawPath_appends _ _ _ _ _)
    · exact (drawPath_appends _ _ _ _ _).trans (drawPath_appends _ _ _ _ _)

theorem drawRoute_appends (st : State) (ids : List Nat) (s : String) (spot : SpotEl) :
    AppendsPaths st (drawRoute st ids s spot).state := by
  unfold drawRoute
  cases ids with
  | nil => exact AppendsPaths.refl st
  | cons first rest =>
    simp only
    cases waypointAt first with
    | none => exact AppendsPaths.refl st
    | some w0 =>
      simp only
      have h := drawWaypoints_appends rest st w0.x w0.y
      rcases hd : drawWaypoints st w0.x w0.y rest with ⟨st1, last⟩
      rw [hd] at h
      cases last with
      | none => exact h
      | some p =>
        obtain ⟨lastX, lastY⟩ := p
        exact h.trans (drawApproach_appends _ _ _ _ _ _)

/-- The state after a first click on a non-occupied spot: the spot is the
last clicked one, the non-path children are in place and only path elements
follow them. -/
theorem onClick_first (st : State) (target : Nat) (spot : SpotEl) (np ps : List Node)
    (hspot : st.spots[target]? = some spot)
    (hfree : isOccupiedColour spot.fill = false)
    (hlast : st.lastClickedSpot ≠ some target)
    (hch : st.children = np ++ ps)
    (hnp : ∀ c ∈ np, c.tagName ≠ "path") (hps : ∀ c ∈ ps, c.tagName = "path")
    (hne : np ≠ []) :
    (onClick st target).state.spots = st.spots ∧
      (onClick st target).state.lastClickedSpot = some target ∧
      ∃ ps', (onClick st target).state.children = np ++ ps' ∧
        ∀ c ∈ ps', c.tagName = "path" := by
  have hclear := removeTrailingPaths_split np ps hnp hps hne
  unfold onClick
  simp only [hspot, hfree, hlast, if_false, Bool.false_eq_true]
  cases routingPaths (jsReplace spot.parentId "section-" "") with
  | undefined => exact ⟨rfl, rfl, ps, hch, hps⟩
  | inherited =>
    refine ⟨rfl, rfl, [], ?_, by simp⟩
    simp only [hch, hclear, List.append_nil]
  | own ids =>
    simp only [hch, hclear, if_false, Bool.false_eq_true]
    obtain ⟨h1, h2, -, segs, h4, h5⟩ := drawRoute_appends
      { st with lastClickedSpot := some target, children := np } ids
      (jsReplace spot.parentId "section-" "") spot
    exact ⟨h1, h2, segs, h4, h5⟩

/-- C7. From a state whose last clicked spot is not X, two consecutive
clicks on a non-occupied spot X end with `lastClickedSpot` null and no path
segment on the diagram, provided the path elements of the svg are its
trailing children, after at least one child that is not a path. -/
theorem onClick_twice_idle (st : State) (target : Nat) (spot : SpotEl) (np ps : List Node)
    (hspot : st.spots[target]? = some spot)
    (hfree : isOccupiedColour spot.fill = false)
    (hlast : st.lastClickedSpot ≠ some target)
    (hch : st.children = np ++ ps)
    (hnp : ∀ c ∈ np, c.tagName ≠ "path") (hps : ∀ c ∈ ps, c.tagName = "path")
    (hne : np ≠ []) :
    (onClick (onClick st target).state target).thrown = false ∧
      (onClick (onClick st target).state target).state.lastClickedSpot = none ∧
      pathSegments (onClick (onClick st target).state target).state = [] ∧
      (onClick (onClick st target).state target).state.children = np := by
  obtain ⟨hs1, hl1, ps', hc1, hps'⟩ := onClick_first st target spot np ps hspot hfree hlast hch
    hnp hps hne
  generalize (onClick st target).state = st1 at hs1 hl1 hc1
  have hclear := removeTrailingPaths_split np ps' hnp hps' hne
  have h2 : onClick st1 target =
      ⟨{ st1 with children := np, lastClickedSpot := none }, false⟩ := by
    unfold onClick
    simp only [hs1, hspot, hfree, hl1, hc1, hclear, if_true, if_false, Bool.false_eq_true]
  rw [h2]
  refine ⟨rfl, rfl, ?_, rfl⟩
  simp only [pathSegments, List.filter_eq_nil_iff, isPath, beq_iff_eq]
  exact hnp

/-- Witness of C7: on the sample diagram after a poll, with the three
suggested segments as trailing children, two clicks on the available spot 2 of
section A. -/
theorem onClick_twice_idle_witness :
    diagramPolled.spots[1]? = some ⟨"section-A", 2, 208.5, 50, "cyan"⟩ ∧
      diagramPolled.lastClickedSpot ≠ some 1 ∧
      diagramPolled.children = [⟨"g", some "section-A", none⟩] ++
        [pathNode 421 134 197.5 50, pathNode 197.5 50 197.5 50, pathNode 197.5 50 208.5 50] ∧
      ((onClick (onClick diagramPolled 1).state 1).thrown = false ∧
        (onClick (onClick diagramPolled 1).state 1).state.lastClickedSpot = none ∧
        pathSegments (onClick (onClick diagramPolled 1).state 1).state = [] ∧
        (onClick (onClick diagramPolled 1).state 1).state.children =
          [⟨"g", some "section-A", none⟩]) :=
  ⟨rfl, by decide, rfl,
    onClick_twice_idle diagramPolled 1 ⟨"section-A", 2, 208.5, 50, "cyan"⟩
      [⟨"g", some "section-A", none⟩]
      [pathNode 421 134 197.5 50, pathNode 197.5 50 197.5 50, pathNode 197.5 50 208.5 50]
      rfl (by decide) (by decide) rfl (by decide) (by decide) (by decide)⟩

/-- C9, as the code has it. The click handler does not tell the suggested
segments from its own. With the path elements as trailing children of the svg
after at least one other child, a click on an occupied spot, or a first click
on a spot whose section has no route, leaves every child of the svg in place;
every other click on a spot removes all path elements, the suggested ones
included: it gives the outcome it gives on the diagram without any path. -/
theorem onClick_clears_all_paths (st : State) (target : Nat) (spot : SpotEl)
    (np ps : List Node)
    (hspot : st.spots[target]? = some spot)
    (hch : st.children = np ++ ps)
    (hnp : ∀ c ∈ np, c.tagName ≠ "path") (hps : ∀ c ∈ ps, c.tagName = "path")
    (hne : np ≠ []) :
    ((isOccupiedColour spot.fill = true ∨
        (st.lastClickedSpot ≠ some target ∧
          routingPaths (jsReplace spot.parentId "section-" "") = RouteLookup.undefined)) →
        (onClick st target).state.children = st.children) ∧
      (isOccupiedColour spot.fill = false →
        (st.lastClickedSpot = some target ∨
          routingPaths (jsReplace spot.parentId "section-" "") ≠ RouteLookup.undefined) →
        onClick st target = onClick { st with children := np } target) := by
  have hclear := removeTrailingPaths_split np ps hnp hps hne
  have hclear' : removeTrailingPaths np = (np, false) := by
    have := removeTrailingPaths_split np [] hnp (by simp) hne
    simpa using this
  constructor
  · rintro (hocc | ⟨hlast, hroute⟩)
    · unfold onClick
      simp only [hspot, hocc, if_true]
    · unfold onClick
      simp only [hspot]
      split
      · rfl
      · simp only [hlast, hroute, if_false]
  · intro hfree hcase
    unfold onClick
    simp only [hspot, hfree, if_false, Bool.false_eq_true]
    by_cases hlast : st.lastClickedSpot = some target
    · simp only [hlast, if_true, hch, hclear, hclear', if_false, Bool.false_eq_true]
    · simp only [hlast, if_false]
      cases hr : routingPaths (jsReplace spot.parentId "section-" "") with
      | undefined =>
        rcases hcase with h | h
        · exact absurd h hlast
        · exact absurd hr h
      | inherited => simp only [hch, hclear, hclear']
      | own ids => simp only [hch, hclear, hclear', if_false, Bool.false_eq_true]

/-- Witness of the amended C9: a first click on the available spot 2 of
section A after a poll drew the three suggested segments. -/
theorem onClick_clears_all_paths_witness :
    diagramPolled.spots[1]? = some ⟨"section-A", 2, 208.5, 50, "cyan"⟩ ∧
      diagramPolled.children = [⟨"g", some "section-A", none⟩] ++
        [pathNode 421 134 197.5 50, pathNode 197.5 50 197.5 50, pathNode 197.5 50 208.5 50] ∧
      onClick diagramPolled 1 =
        onClick { diagramPolled with children := [⟨"g", some "section-A", none⟩] } 1 :=
  ⟨rfl, rfl,
    (onClick_clears_all_paths diagramPolled 1 ⟨"section-A", 2, 208.5, 50, "cyan"⟩
      [⟨"g", some "section-A", none⟩]
      [pathNode 421 134 197.5 50, pathNode 197.5 50 197.5 50, pathNode 197.5 50 208.5 50]
      rfl rfl (by decide) (by decide) (by decide)).2 (by decide) (Or.inr (by decide))⟩

/-- Counterexample to C9. After a poll drew the three suggested segments for
spot 1 of section A, a click on the available spot 2 leaves four path
segments, those of its own route from the first waypoint, and the three
suggested ones are gone; a second click on the spot leaves none. -/
theorem onClick_removes_suggested_segments :
    (pathSegments diagramPolled).length = 3 ∧
      (pathSegments (onClick diagramPolled 1).state).length = 4 ∧
      (onClick diagramPolled 1).state.children = (onClick diagramA 1).state.children ∧
      pathSegments (onClick (updatePathForOccupiedSpots snapshotHyphen
        (onClick diagramA 1).state).state 1).state = [] :=
  ⟨by decide, by decide, rfl, by decide⟩

/-! ## Theorems: polling twice -/

/-- An element that `drawPath` created has no id, so `removePathForSpot`
never finds it: when no child of the svg has the id
`path-${section}-${spotNumber}`, the function changes nothing. -/
theorem removePathForSpot_no_id (st : State) (s : String) (n : Option Int)
    (h : ∀ c ∈ st.children, c.id ≠ some ("path-" ++ s ++ "-" ++ numberText n)) :
    removePathForSpot st s n = st := by
  unfold removePathForSpot
  have hnone : st.children.findIdx? (fun c => c.id == some ("path-" ++ s ++ "-" ++ numberText n))
      = none := by
    rw [List.findIdx?_eq_none_iff]
    intro c hc
    simpa using h c hc
  simp only [hnone]

/-- C10 at the failing input. On the sample diagram, one poll of
`snapshotHyphen` draws the three segments suggested for spot 1 of section A;
a second poll of the same snapshot removes none of them and draws the same
three again, leaving six. -/
theorem updatePathForOccupiedSpots_twice_accumulates :
    (pathSegments (updatePathForOccupiedSpots snapshotHyphen diagramA).state).length = 3 ∧
      (pathSegments (updatePathForOccupiedSpots snapshotHyphen
        (updatePathForOccupiedSpots snapshotHyphen diagramA).state).state).length = 6 ∧
      (updatePathForOccupiedSpots snapshotHyphen
        (updatePathForOccupiedSpots snapshotHyphen diagramA).state).state.children =
        (updatePathForOccupiedSpots snapshotHyphen diagramA).state.children ++
          [pathNode 421 134 197.5 50, pathNode 197.5 50 197.5 50, pathNode 197.5 50 208.5 50] :=
  ⟨by decide, by decide, rfl⟩

/-! ## Theorems: the radius of the search -/

/-- C11. The search radius of `findNearestFreeSpot` is the length of the
whole snapshot, not a count over the section: the result is null exactly when
no available record of section `s` lies at an offset `d` from `n` with
`1 ≤ d < data.length`, whatever available spots the section holds farther
away, so that records of other sections lengthen the radius; and the result
is null for every snapshot of at most one record. -/
theorem findNearestFreeSpot_radius (data : List Record) (s : String) (n : Int) :
    (findNearestFreeSpot data s (some n) = none ↔
        ∀ q ∈ data, q.sectionName = some s → q.status = some "available" →
          ∀ k : Int, q.spot_number = some k →
            ¬ (1 ≤ |k - n| ∧ |k - n| < (data.length : Int))) ∧
      (data.length ≤ 1 → findNearestFreeSpot data s (some n) = none) := by
  have hgen : (∀ q ∈ data, q.sectionName = some s → q.status = some "available" →
      ∀ k : Int, q.spot_number = some k →
        ¬ (1 ≤ |k - n| ∧ |k - n| < (data.length : Int))) →
      findNearestFreeSpot data s (some n) = none := by
    intro hno
    unfold findNearestFreeSpot
    rw [searchFrom_eq_none]
    intro e he1 he2
    have hlen : (e : Int) < data.length := by omega
    constructor
    · rw [List.find?_eq_none]
      intro q hq hp
      obtain ⟨hqs, hqn, hqt⟩ := (isCandidateBefore_iff s n e q).mp hp
      refine hno q hq hqs hqt (n - e) hqn ⟨?_, ?_⟩
      · rw [abs_of_nonpos (by omega)]; omega
      · rw [abs_of_nonpos (by omega)]; omega
    · rw [List.find?_eq_none]
      intro q hq hp
      obtain ⟨hqs, hqn, hqt⟩ := (isCandidateAfter_iff s n e q).mp hp
      refine hno q hq hqs hqt (n + e) hqn ⟨?_, ?_⟩
      · rw [abs_of_nonneg (by omega)]; omega
      · rw [abs_of_nonneg (by omega)]; omega
  refine ⟨⟨?_, hgen⟩, fun hshort => hgen ?_⟩
  · intro hnone q hq hqs hqt k hk hrange
    unfold findNearestFreeSpot at hnone
    rw [searchFrom_eq_none] at hnone
    obtain ⟨h1, h2⟩ := hrange
    obtain ⟨e, he⟩ : ∃ e : Nat, (e : Int) = |k - n| := ⟨(|k - n|).toNat, by omega⟩
    obtain ⟨hb, ha⟩ := hnone e (by omega) (by omega)
    rcases le_total k n with hle | hle
    · have hke : k = n - (e : Int) := by rw [he, abs_of_nonpos (by omega)]; omega
      have hp : isCandidateBefore s (some n) e q = true :=
        (isCandidateBefore_iff s n e q).mpr ⟨hqs, hke ▸ hk, hqt⟩
      exact absurd hp (List.find?_eq_none.mp hb q hq)
    · have hke : k = n + (e : Int) := by rw [he, abs_of_nonneg (by omega)]; omega
      have hp : isCandidateAfter s (some n) e q = true :=
        (isCandidateAfter_iff s n e q).mpr ⟨hqs, hke ▸ hk, hqt⟩
      exact absurd hp (List.find?_eq_none.mp ha q hq)
  · intro q _ _ _ k _ hk
    omega

/-- Witness of C11. With spot 1 of section A occupied and spot 5 available,
the snapshot has two records, the available spot lies at offset 4 and the
search from spot 1 returns null. With three records of section B appended the
snapshot has five records, offset 4 is within the radius, and the same search
returns spot 5. -/
theorem findNearestFreeSpot_radius_witness :
    mkRecord "A" 5 "available" ∈ snapshotFar ∧
      ¬ (|(5 : Int) - 1| < (snapshotFar.length : Int)) ∧
      findNearestFreeSpot snapshotFar "A" (some 1) = none ∧
      (mkRecord "A" 5 "available" ∈ snapshotFarPadded ∧
        (1 ≤ |(5 : Int) - 1| ∧ |(5 : Int) - 1| < (snapshotFarPadded.length : Int))) ∧
      findNearestFreeSpot snapshotFarPadded "A" (some 1) ≠ none ∧
      findNearestFreeSpot snapshotFarPadded "A" (some 1) = some (mkRecord "A" 5 "available") :=
  ⟨by decide, by decide,
    (findNearestFreeSpot_radius snapshotFar "A" 1).1.mpr
      (by
        intro q hq _ hqt k hk
        simp only [snapshotFar, mkRecord, List.mem_cons, List.mem_singleton, List.not_mem_nil,
          or_false] at hq
        rcases hq with rfl | rfl
        · exact absurd hqt (by decide)
        · obtain rfl : (5 : Int) = k := Option.some.inj hk
          decide),
    ⟨by decide, by decide⟩,
    fun hnone =>
      (findNearestFreeSpot_radius snapshotFarPadded "A" 1).1.mp hnone
        (mkRecord "A" 5 "available") (by decide) rfl rfl 5 rfl (by decide),
    by decide⟩

end VehicleDetection
